import Mathlib

/-!
Shallow embedding of the resilient paginated API-fetch client of the
csod-playground repository: the token cache (`src/utils/getCSODToken.ts`),
the resilient fetch with linear backoff (`apiFetch` in
`src/utils/apiFetch.ts`), the recursive paginator
(`paginatedFetchFromCSOD` in `src/utils/apiFetch.ts`) and the loop-based
pagination flavor (`getAllUsers` in `src/users/getAllUsers.ts`).

HTTP transport is modelled by oracles: for `apiFetch`, a function from the
attempt index (the code retries the very same uri/headers/payload/method,
so successive attempts of the one logical request are indexed 0, 1, ...)
to what that attempt's `fetch`/`response.json()` does; for the paginator,
a function from the URI string to the outcome of the resilient fetch on
that URI. Wall-clock sleeping is observable only through the recorded
list of slept delays.
-/

namespace CSOD

/-- What one transport attempt does: either the `fetch` call or the
`response.json()` call throws (DNS failure, connection reset, malformed
body — all reach the same `catch` block in the source), or a response
with an HTTP status code and a JSON-parsed body is produced. -/
inductive AttemptResult (β : Type) where
  | throws : AttemptResult β
  | returns (status : Nat) (body : β) : AttemptResult β
deriving DecidableEq

/-- The `body` field of a `FetchResponse` record as built in
`apiFetch.ts`: either the JSON-parsed upstream body, or one of the two
literal objects the source fabricates (`{message: '429 - Gave up'}` and
`{message: 'fetch throwed up', error}`). -/
inductive ApiBody (β : Type) where
  | parsed (b : β) : ApiBody β
  | gaveUpMessage : ApiBody β
  | threwUpMessage : ApiBody β
deriving DecidableEq

/-- The failure record `FetchResponse` of `apiFetch.ts`
(`{ok: boolean, body: unknown, code?: number}`); every construction site
in the source sets `code`, so it is modelled as a plain `Nat`.  The
optional raw `response` handle carried on the bad-response branch is not
modelled (it is an opaque runtime object). -/
structure FetchResponse (β : Type) where
  ok : Bool
  code : Nat
  body : ApiBody β
deriving DecidableEq

/-- The result of `apiFetch`: the source returns `[T, null]` on success
and `[null, FetchResponse]` on failure. -/
inductive FetchResult (β : Type) where
  | success (body : β) : FetchResult β
  | failure (err : FetchResponse β) : FetchResult β
deriving DecidableEq

/-- `apiFetch` from `src/utils/apiFetch.ts`, instrumented with the list
of delays slept (one entry per attempt, in order; the source does
`await sleep(delay)` on entry of every attempt).  `behavior n` is what
the transport does on the n-th attempt of this logical request; `attempt`
is the index of the current attempt and `delay` the current backoff
value (`delay = 0` at the original call site).  Mirrors the source:
status 429 with `delay <= 60` retries the same request with `delay + 15`;
429 with `delay > 60` gives up with `{ok: false, code: 0,
body: {message: '429 - Gave up'}}`; status 200 succeeds with the parsed
body; any other status fails with `{ok: true, code, body}`; a thrown
transport exception is caught and turned into `{ok: false, code: 0,
body: {message: 'fetch throwed up', error}}`. -/
def apiFetch (behavior : Nat → AttemptResult β) (attempt : Nat) (delay : Nat) :
    FetchResult β × List Nat :=
  match behavior attempt with
  | .throws => (.failure ⟨false, 0, .threwUpMessage⟩, [delay])
  | .returns status body =>
    if status = 429 then
      if h : delay ≤ 60 then
        let rest := apiFetch behavior (attempt + 1) (delay + 15)
        (rest.1, delay :: rest.2)
      else
        (.failure ⟨false, 0, .gaveUpMessage⟩, [delay])
    else if status = 200 then
      (.success body, [delay])
    else
      (.failure ⟨true, status, .parsed body⟩, [delay])
termination_by 61 - delay
decreasing_by omega

/-- Whether an attempt produced a 429 (rate-limited) response. -/
def is429 : AttemptResult β → Bool
  | .throws => false
  | .returns status _ => status == 429

/-- The `ODataResponse<T>` shape from `apiFetch.ts`:
`{'@odata.count'?: number, value: T[], '@odata.nextLink'?: string}`. -/
structure ODataPage (α : Type) where
  count : Option Nat
  value : List α
  nextLink : Option String
deriving DecidableEq

/-- JavaScript truthiness of the optional `@odata.nextLink` string: the
source tests `if (!nextLink)`, which treats both an absent field and an
empty string as "no next link". -/
def truthyLink : Option String → Bool
  | none => false
  | some s => !s.isEmpty

/-- `paginatedFetchFromCSOD` from `src/utils/apiFetch.ts`.  `data` maps a
URI to the outcome the resilient fetch (`apiFetch`) produces for it; the
`fuel` argument bounds the recursion depth of the embedding (the source
recursion is unbounded and terminates only when the walk does; every
theorem below supplies enough fuel for the walk it talks about).
Mirrors the source: on fetch failure the accumulated `collection` is
returned as-is; on success the page's `value` array is appended, and the
walk recurses on a truthy `@odata.nextLink`, used verbatim as the next
URI, or returns the accumulator when the link is absent or empty. -/
def paginatedFetchFromCSOD (data : String → FetchResult (ODataPage α)) :
    Nat → String → List α → List α
  | 0, _, collection => collection
  | fuel + 1, uri, collection =>
    match data uri with
    | .failure _ => collection
    | .success response =>
      let collection2 := collection ++ response.value
      match response.nextLink with
      | none => collection2
      | some nextLink =>
        if nextLink.isEmpty then collection2
        else paginatedFetchFromCSOD data fuel nextLink collection2

/-- The initial call of `paginatedFetchFromCSOD`: when no collection is
passed, the source prefixes `CSOD_API_HOST` to the path and starts from
an empty accumulator (`collection ??= []`). -/
def paginatedFetchCall (host : String) (data : String → FetchResult (ODataPage α))
    (fuel : Nat) (uripath : String) : List α :=
  paginatedFetchFromCSOD data fuel (host ++ uripath) []

/-- `getAllUsers` from `src/users/getAllUsers.ts`: the loop-based
pagination flavor.  `data` maps a URI to the JSON payload of the raw
(unclassified) fetch; `fuel` bounds the `while(1)` loop of the source.
Mirrors the source: each iteration appends `payload.value` to
`allUsers`; the loop breaks when the page has fewer than 1000 rows,
otherwise it continues at `payload['@odata.nextLink']`.  When a page
with at least 1000 rows has no next link the source sets
`apiUrl = undefined` and the following `fetch(undefined)` throws, which
the function does not catch: that crash is modelled as `none`. -/
def getAllUsers (data : String → ODataPage α) :
    Nat → String → List α → Option (List α)
  | 0, _, allUsers => some allUsers
  | fuel + 1, apiUrl, allUsers =>
    let userPayload := data apiUrl
    let users := userPayload.value
    let allUsers2 := allUsers ++ users
    if users.length < 1000 then
      some allUsers2
    else
      match userPayload.nextLink with
      | some link => getAllUsers data fuel link allUsers2
      | none => none

/-- JavaScript falsiness of the captured `token` variable in
`getCSODToken.ts` (`undefined` before the first issuance; an empty
string would also be falsy). -/
def strFalsy : Option String → Bool
  | none => true
  | some s => s.isEmpty

/-- The closure state of `apiToken` in `src/utils/getCSODToken.ts`:
`let token: string; let expiration: Date`, both undefined at startup.
Time is modelled in whole seconds as `Nat`. -/
structure TokenCacheState where
  token : Option String
  expiration : Option Nat
deriving DecidableEq

/-- The process-startup state: neither variable assigned yet. -/
def initialTokenCache : TokenCacheState := ⟨none, none⟩

/-- The refresh test of `apiToken.get()`:
`!token || !expiration || now > expiration`.  A `Date` object is always
truthy in JavaScript, so `!expiration` only detects the undefined
state. -/
def needsRefresh (now : Nat) (s : TokenCacheState) : Bool :=
  strFalsy s.token ||
    match s.expiration with
    | none => true
    | some e => decide (e < now)

/-- One `apiToken.get()` call from `src/utils/getCSODToken.ts` at time
`now`.  `issue` is what `fetchAPIToken()` would do if invoked on this
call (return the `"<token_type> <access_token>"` string, or throw).
Returns the call's outcome, the state afterwards, and whether an
issuance request was made.  Mirrors the source: when the refresh test
fires, `token = await fetchAPIToken()` runs (a thrown error propagates
before either assignment, leaving the state untouched) and
`expiration` is set to `now` plus the 15-second TTL; otherwise the
cached token is returned with the state unchanged. -/
def apiTokenGet (now : Nat) (issue : Except ε String) (s : TokenCacheState) :
    Except ε String × TokenCacheState × Bool :=
  if needsRefresh now s then
    match issue with
    | .ok tok => (.ok tok, ⟨some tok, some (now + 15)⟩, true)
    | .error err => (.error err, s, true)
  else
    (.ok (s.token.getD ""), s, false)

/-- A sequence of `apiToken.get()` calls, each given as (time, issuance
outcome if invoked), starting from state `s`; returns the final state
and the number of issuance requests made. -/
def runGets : List (Nat × Except ε String) → TokenCacheState → TokenCacheState × Nat
  | [], s => (s, 0)
  | (now, issue) :: rest, s =>
    let r := apiTokenGet now issue s
    let rr := runGets rest r.2.1
    (rr.1, (if r.2.2 then 1 else 0) + rr.2)

/-- `ReachesPages data uri ps`: starting at `uri`, the backing function
yields exactly the successful pages `ps`, following truthy (non-empty)
next links verbatim, and the final page of `ps` carries no truthy next
link.  This is the "modeled page sequence ending in a page with no next
link" of the spec. -/
inductive ReachesPages (data : String → FetchResult (ODataPage α)) :
    String → List (ODataPage α) → Prop where
  | last (uri : String) (p : ODataPage α) :
      data uri = .success p → truthyLink p.nextLink = false →
      ReachesPages data uri [p]
  | step (uri : String) (p : ODataPage α) (link : String)
      (rest : List (ODataPage α)) :
      data uri = .success p → p.nextLink = some link → link.isEmpty = false →
      ReachesPages data link rest → ReachesPages data uri (p :: rest)

/-- `LeadsTo data uri ps uriF`: from `uri` the backing function yields
the successful pages `ps`, each carrying a truthy next link, and the
walk arrives at URI `uriF` (the URI whose fetch is examined next). -/
inductive LeadsTo (data : String → FetchResult (ODataPage α)) :
    String → List (ODataPage α) → String → Prop where
  | here (uri : String) : LeadsTo data uri [] uri
  | step (uri : String) (p : ODataPage α) (link : String)
      (rest : List (ODataPage α)) (uriF : String) :
      data uri = .success p → p.nextLink = some link → link.isEmpty = false →
      LeadsTo data link rest uriF → LeadsTo data uri (p :: rest) uriF

/-- A transport that answers 429 on every attempt. -/
def alwaysRateLimited : Nat → AttemptResult Nat := fun _ => .returns 429 0

/-- Backing data exposing the two flavors' different termination rules:
page `"u1"` has one row and a next link to `"u2"`; page `"u2"` has one
row and no next link. -/
def flavorPages : String → ODataPage Nat := fun uri =>
  if uri = "u1" then ⟨none, [1], some "u2"⟩ else ⟨none, [2], none⟩

/-- `flavorPages` seen through the resilient fetch (every fetch
succeeds). -/
def flavorData : String → FetchResult (ODataPage Nat) :=
  fun uri => .success (flavorPages uri)

/-- Backing data where page `"v1"` (one row `7`) links to `"v2"`, whose
fetch fails with a transport error. -/
def failingTailData : String → FetchResult (ODataPage Nat) := fun uri =>
  if uri = "v1" then .success ⟨none, [7], some "v2"⟩
  else .failure ⟨false, 0, .threwUpMessage⟩

/-- Backing data with pages P1 = ([10, 11], next `"w2"`) and
P2 = ([12], no next link). -/
def twoPageData : String → FetchResult (ODataPage Nat) := fun uri =>
  if uri = "w1" then .success ⟨none, [10, 11], some "w2"⟩
  else .success ⟨none, [12], none⟩

/-- Backing data whose every page is empty with no next link. -/
def emptyPageData : String → FetchResult (ODataPage Nat) :=
  fun _ => .success ⟨none, [], none⟩

/-- Three `get()` calls at times 0, 10 and 20 seconds — consecutive
spacings of 10 s, each below the 15 s TTL — with successful issuance
outcomes on offer. -/
def closeSpacedCalls : List (Nat × Except Unit String) :=
  [(0, .ok "Bearer A"), (10, .ok "Bearer B"), (20, .ok "Bearer C")]

theorem is429_iff (a : AttemptResult β) :
    is429 a = true ↔ ∃ b, a = .returns 429 b := by
  cases a with
  | throws => simp [is429]
  | returns s b =>
    simp only [is429, beq_iff_eq, AttemptResult.returns.injEq]
    constructor
    · intro hs
      exact ⟨b, hs, rfl⟩
    · rintro ⟨b2, hs, hb⟩
      exact hs

/-- Helper: a run of `k` rate-limited attempts starting at attempt `j`
with delay `15 * j` (with `j + k ≤ 5`, so every attempt in the run
passes the `delay <= 60` test) defers to attempt `j + k`, with the run's
delays recorded in front. -/
theorem apiFetch_429run (behavior : Nat → AttemptResult β) :
    ∀ k j, j + k ≤ 5 →
    (∀ n, j ≤ n → n < j + k → is429 (behavior n) = true) →
    apiFetch behavior j (15 * j) =
      ((apiFetch behavior (j + k) (15 * (j + k))).1,
        (List.range' j k).map (fun i => 15 * i) ++ (apiFetch behavior (j + k) (15 * (j + k))).2) := by
  intro k
  induction k with
  | zero =>
    intro j _ _
    simp
  | succ k ih =>
    intro j hjk h429
    have hj : is429 (behavior j) = true := h429 j le_rfl (by omega)
    obtain ⟨b, hb⟩ := (is429_iff _).mp hj
    rw [apiFetch, hb]
    simp only [if_pos rfl]
    rw [dif_pos (by omega : 15 * j ≤ 60)]
    have h15 : 15 * j + 15 = 15 * (j + 1) := by ring
    rw [h15]
    rw [ih (j + 1) (by omega) (fun n hn1 hn2 => h429 n (by omega) (by omega))]
    have hjj : j + 1 + k = j + (k + 1) := by omega
    rw [hjj]
    simp [List.range'_succ]

end CSOD

namespace CSOD

def rateLimitedTwice : Nat → AttemptResult Nat := fun n =>
  if n < 2 then .returns 429 0 else .returns 200 7

def badStatusOnce : Nat → AttemptResult Nat := fun _ => .returns 404 3

theorem claim_C1 :
    (∀ (β : Type) (behavior : Nat → AttemptResult β),
      (∀ n, n ≤ 5 → is429 (behavior n) = true) →
      apiFetch behavior 0 0 =
        (.failure ⟨false, 0, .gaveUpMessage⟩, [0, 15, 30, 45, 60, 75])) ∧
    (∀ (β : Type) (behavior : Nat → AttemptResult β) (k : Nat) (b : β),
      k ≤ 5 → (∀ n, n < k → is429 (behavior n) = true) →
      behavior k = .returns 200 b →
      (apiFetch behavior 0 0).1 = .success b) := by
  constructor
  · intro β behavior h429
    have h := apiFetch_429run behavior 5 0 (by omega) (fun n h1 h2 => h429 n (by omega))
    simp only [Nat.mul_zero, Nat.zero_add] at h
    obtain ⟨b5, hb5⟩ := (is429_iff _).mp (h429 5 (by omega))
    have h5 : apiFetch behavior 5 75 = (.failure ⟨false, 0, .gaveUpMessage⟩, [75]) := by
      rw [apiFetch, hb5]
      simp
    have hr : (List.range' 0 5).map (fun i => 15 * i) = [0, 15, 30, 45, 60] := by decide
    rw [h, h5, hr]
    simp
  · intro β behavior k b hk h429 h200
    have h := apiFetch_429run behavior k 0 (by omega) (fun n h1 h2 => h429 n (by omega))
    simp only [Nat.mul_zero, Nat.zero_add] at h
    have hstep : apiFetch behavior k (15 * k) = (.success b, [15 * k]) := by
      rw [apiFetch, h200]
      simp
    rw [h, hstep]

theorem claim_C1_cex :
    (apiFetch alwaysRateLimited 0 0).2 = [0, 15, 30, 45, 60, 75] ∧
    ¬ (apiFetch alwaysRateLimited 0 0).2.length ≤ 5 ∧
    (apiFetch alwaysRateLimited 0 0).1 = .failure ⟨false, 0, .gaveUpMessage⟩ := by
  have h : apiFetch alwaysRateLimited 0 0
      = (.failure ⟨false, 0, .gaveUpMessage⟩, [0, 15, 30, 45, 60, 75]) := by
    simp [apiFetch, alwaysRateLimited]
  simp [h]

theorem claim_C1_witness :
    apiFetch alwaysRateLimited 0 0
      = (.failure ⟨false, 0, .gaveUpMessage⟩, [0, 15, 30, 45, 60, 75]) ∧
    (apiFetch rateLimitedTwice 0 0).1 = .success 7 := by
  constructor
  · exact claim_C1.1 Nat alwaysRateLimited (fun n _ => rfl)
  · exact claim_C1.2 Nat rateLimitedTwice 2 7 (by omega)
      (fun n hn => by simp [rateLimitedTwice, hn, is429]) (by simp [rateLimitedTwice])

theorem claim_C3 : ∀ (β : Type) (behavior : Nat → AttemptResult β) (k status : Nat) (b : β),
    k ≤ 5 → (∀ n, n < k → is429 (behavior n) = true) →
    behavior k = .returns status b → status ≠ 429 →
    ((status = 200 →
        apiFetch behavior 0 0
          = (.success b, (List.range' 0 k).map (fun i => 15 * i) ++ [15 * k])) ∧
     (status ≠ 200 →
        apiFetch behavior 0 0
          = (.failure ⟨true, status, .parsed b⟩,
              (List.range' 0 k).map (fun i => 15 * i) ++ [15 * k])) ∧
     (apiFetch behavior 0 0).2.length = k + 1) := by
  intro β behavior k status b hk h429 hbk hne
  have h := apiFetch_429run behavior k 0 (by omega) (fun n h1 h2 => h429 n (by omega))
  simp only [Nat.mul_zero, Nat.zero_add] at h
  by_cases h200 : status = 200
  · subst h200
    have hstep : apiFetch behavior k (15 * k) = (.success b, [15 * k]) := by
      rw [apiFetch, hbk]
      simp
    refine ⟨fun _ => by rw [h, hstep], fun hc => absurd rfl hc, ?_⟩
    rw [h, hstep]
    simp
  · have hstep : apiFetch behavior k (15 * k)
        = (.failure ⟨true, status, .parsed b⟩, [15 * k]) := by
      rw [apiFetch, hbk]
      simp [hne, h200]
    refine ⟨fun hc => absurd hc h200, fun _ => by rw [h, hstep], ?_⟩
    rw [h, hstep]
    simp

theorem claim_C3_witness :
    apiFetch rateLimitedTwice 0 0
      = (.success 7, (List.range' 0 2).map (fun i => 15 * i) ++ [15 * 2]) ∧
    apiFetch badStatusOnce 0 0
      = (.failure ⟨true, 404, .parsed 3⟩,
          (List.range' 0 0).map (fun i => 15 * i) ++ [15 * 0]) := by
  constructor
  · exact (claim_C3 Nat rateLimitedTwice 2 200 7 (by omega)
      (fun n hn => by simp [rateLimitedTwice, hn, is429])
      (by simp [rateLimitedTwice]) (by omega)).1 rfl
  · exact (claim_C3 Nat badStatusOnce 0 404 3 (by omega)
      (fun n hn => absurd hn (Nat.not_lt_zero n)) rfl (by omega)).2.1 (by omega)

theorem claim_C8 :
    (∀ (β : Type) (behavior : Nat → AttemptResult β) (attempt delay : Nat),
      behavior attempt = .throws →
      apiFetch behavior attempt delay
        = (.failure ⟨false, 0, .threwUpMessage⟩, [delay])) ∧
    (∀ (β : Type) (behavior : Nat → AttemptResult β) (attempt delay : Nat),
      (∃ b, (apiFetch behavior attempt delay).1 = .success b) ∨
      (∃ e, (apiFetch behavior attempt delay).1 = .failure e)) := by
  constructor
  · intro β behavior attempt delay h
    rw [apiFetch, h]
  · intro β behavior attempt delay
    cases hr : (apiFetch behavior attempt delay).1 with
    | success b => exact Or.inl ⟨b, rfl⟩
    | failure e => exact Or.inr ⟨e, rfl⟩

theorem claim_C8_witness :
    apiFetch (fun _ => (.throws : AttemptResult Nat)) 0 0
      = (.failure ⟨false, 0, .threwUpMessage⟩, [0]) :=
  claim_C8.1 Nat (fun _ => .throws) 0 0 rfl

theorem claim_C9 : ∀ (β : Type) (behavior : Nat → AttemptResult β) (attempt delay : Nat)
    (f : FetchResponse β), (apiFetch behavior attempt delay).1 = .failure f →
    (f.ok = true ∧ f.code ≠ 200 ∧ f.code ≠ 429 ∧
      ∃ n b, behavior n = .returns f.code b ∧ f.body = .parsed b) ∨
    (f.ok = false ∧ f.code = 0 ∧
      (f.body = .gaveUpMessage ∨ f.body = .threwUpMessage)) := by
  intro β behavior attempt delay
  induction attempt, delay using apiFetch.induct behavior with
  | case1 attempt delay heq =>
    intro f hf
    rw [apiFetch, heq] at hf
    simp at hf
    subst hf
    right
    simp
  | case2 attempt delay body hle heq ih =>
    intro f hf
    rw [apiFetch, heq] at hf
    simp only [if_pos rfl, dif_pos hle] at hf
    exact ih f hf
  | case3 attempt delay body hgt heq =>
    intro f hf
    rw [apiFetch, heq] at hf
    simp only [if_pos rfl, dif_neg hgt] at hf
    simp at hf
    subst hf
    right
    simp
  | case4 attempt delay body heq hne =>
    intro f hf
    rw [apiFetch, heq] at hf
    simp only [if_neg hne, if_pos rfl] at hf
    simp at hf
  | case5 attempt delay status body heq h429 h200 =>
    intro f hf
    rw [apiFetch, heq] at hf
    simp only [if_neg h429, if_neg h200] at hf
    simp at hf
    subst hf
    left
    exact ⟨rfl, h200, h429, attempt, body, heq, rfl⟩

theorem claim_C9_witness :
    ((true : Bool) = true ∧ (404 : Nat) ≠ 200 ∧ (404 : Nat) ≠ 429 ∧
      ∃ n b, badStatusOnce n = .returns 404 b ∧
        (ApiBody.parsed 3 : ApiBody Nat) = .parsed b) ∨
    ((true : Bool) = false ∧ (404 : Nat) = 0 ∧
      ((ApiBody.parsed 3 : ApiBody Nat) = .gaveUpMessage ∨
        (ApiBody.parsed 3 : ApiBody Nat) = .threwUpMessage)) := by
  have h := claim_C9 Nat badStatusOnce 0 0 ⟨true, 404, .parsed 3⟩
    (by simp [apiFetch, badStatusOnce])
  simpa using h

end CSOD

namespace CSOD

def emptyPagesRaw : String → ODataPage Nat := fun _ => ⟨none, [], none⟩

/-- Helper: walking a chain of successful pages that ends in a page with
no truthy next link appends the pages' `value` arrays, in order, to the
accumulator. -/
theorem paginatedFetch_reaches_aux (data : String → FetchResult (ODataPage α))
    (uri : String) (ps : List (ODataPage α)) (h : ReachesPages data uri ps) :
    ∀ fuel, ps.length ≤ fuel → ∀ collection,
      paginatedFetchFromCSOD data fuel uri collection
        = collection ++ (ps.map (fun p => p.value)).flatten := by
  induction h with
  | last uri p hp hfalsy =>
    intro fuel hf collection
    cases fuel with
    | zero => simp at hf
    | succ f =>
      simp only [paginatedFetchFromCSOD, hp]
      cases hnl : p.nextLink with
      | none => simp
      | some s =>
        have he : s.isEmpty = true := by
          simpa [truthyLink, hnl] using hfalsy
        simp [he]
  | step uri p link rest hp hlink hne hrest ih =>
    intro fuel hf collection
    cases fuel with
    | zero => simp at hf
    | succ f =>
      simp only [paginatedFetchFromCSOD, hp, hlink, hne]
      rw [ih f (by simpa using hf) (collection ++ p.value)]
      simp

/-- Helper: walking a chain of successful pages that arrives at a URI
whose fetch fails returns the accumulator extended by exactly the
successful pages' `value` arrays. -/
theorem paginatedFetch_leadsTo_aux (data : String → FetchResult (ODataPage α))
    (uri uriF : String) (ps : List (ODataPage α)) (h : LeadsTo data uri ps uriF) :
    ∀ fuel (collection : List α) (e : FetchResponse (ODataPage α)),
      data uriF = .failure e → ps.length < fuel →
      paginatedFetchFromCSOD data fuel uri collection
        = collection ++ (ps.map (fun p => p.value)).flatten := by
  induction h with
  | here uri =>
    intro fuel collection e hfail hlen
    cases fuel with
    | zero => omega
    | succ f =>
      simp only [paginatedFetchFromCSOD, hfail]
      simp
  | step uri p link rest uriF hp hlink hne htail ih =>
    intro fuel collection e hfail hlen
    cases fuel with
    | zero => omega
    | succ f =>
      simp only [paginatedFetchFromCSOD, hp, hlink, hne]
      rw [ih f (collection ++ p.value) e hfail (by simp at hlen; omega)]
      simp

/-- Claim C2 counterexample: page `"u1"` of `flavorPages` has one row
and a next link, so `getAllUsers` stops there ([1]) while
`paginatedFetchFromCSOD` follows the link and returns [1, 2]: the two
flavors do not obey the same termination rule. -/
theorem claim_C2_cex :
    (flavorPages "u1").nextLink = some "u2" ∧
    getAllUsers flavorPages 5 "u1" [] = some [1] ∧
    paginatedFetchFromCSOD flavorData 5 "u1" [] = [1, 2] ∧
    getAllUsers flavorPages 5 "u1" []
      ≠ some (paginatedFetchFromCSOD flavorData 5 "u1" []) := by
  refine ⟨rfl, rfl, rfl, ?_⟩
  have h1 : getAllUsers flavorPages 5 "u1" [] = some [1] := rfl
  have h2 : paginatedFetchFromCSOD flavorData 5 "u1" [] = [1, 2] := rfl
  rw [h1, h2]
  simp

/-- Claim C2 (amended): both flavors accumulate the pages' `value`
arrays in response order, but the termination rules differ —
`getAllUsers` stops exactly when a page has fewer than 1000 rows (even
when the response carries a next link), while `paginatedFetchFromCSOD`
stops exactly when the response carries no truthy next link; on backing
data where a page has fewer than 1000 rows precisely when it has no
next link (and next links are non-empty), the two flavors agree. -/
theorem claim_C2 :
    (∀ (α : Type) (data : String → ODataPage α) (fuel : Nat) (uri : String)
      (acc : List α),
      (data uri).value.length < 1000 →
      getAllUsers data (fuel + 1) uri acc = some (acc ++ (data uri).value)) ∧
    (∀ (α : Type) (data : String → ODataPage α),
      (∀ u, ((data u).value.length < 1000 ↔ (data u).nextLink = none)) →
      (∀ u l, (data u).nextLink = some l → l.isEmpty = false) →
      ∀ fuel uri acc,
        getAllUsers data fuel uri acc
          = some (paginatedFetchFromCSOD (fun u => .success (data u)) fuel uri acc)) := by
  constructor
  · intro α data fuel uri acc hlt
    simp [getAllUsers, hlt]
  · intro α data h1 h2 fuel
    induction fuel with
    | zero =>
      intro uri acc
      rfl
    | succ f ih =>
      intro uri acc
      by_cases hlt : (data uri).value.length < 1000
      · have hnone : (data uri).nextLink = none := (h1 uri).mp hlt
        simp [getAllUsers, paginatedFetchFromCSOD, hlt, hnone]
      · have hne2 : (data uri).nextLink ≠ none := fun hn => hlt ((h1 uri).mpr hn)
        obtain ⟨l, hl⟩ := Option.ne_none_iff_exists'.mp hne2
        have hemp := h2 uri l hl
        simp [getAllUsers, paginatedFetchFromCSOD, hlt, hl, hemp, ih]

theorem claim_C2_witness :
    getAllUsers flavorPages 1 "u1" [] = some ([] ++ (flavorPages "u1").value) ∧
    getAllUsers emptyPagesRaw 3 "x" []
      = some (paginatedFetchFromCSOD (fun u => .success (emptyPagesRaw u)) 3 "x" []) := by
  constructor
  · exact claim_C2.1 Nat flavorPages 0 "u1" [] (by decide)
  · exact claim_C2.2 Nat emptyPagesRaw (fun u => by simp [emptyPagesRaw])
      (fun u l h => by simp [emptyPagesRaw] at h) 3 "x" []

/-- Claim C6: when the walk arrives at a URI whose fetch fails, the
paginator returns exactly the items accumulated from the earlier
successful pages (no error value exists in its return type); in
particular P1 = ([7], next `"v2"`) followed by a transport failure on
`"v2"` yields [7]. -/
theorem claim_C6 :
    (∀ (α : Type) (data : String → FetchResult (ODataPage α)) (uri uriF : String)
      (ps : List (ODataPage α)) (e : FetchResponse (ODataPage α)) (fuel : Nat)
      (collection : List α),
      LeadsTo data uri ps uriF → data uriF = .failure e → ps.length < fuel →
      paginatedFetchFromCSOD data fuel uri collection
        = collection ++ (ps.map (fun p => p.value)).flatten) ∧
    paginatedFetchFromCSOD failingTailData 5 "v1" [] = [7] := by
  constructor
  · intro α data uri uriF ps e fuel collection hlead hfail hlen
    exact paginatedFetch_leadsTo_aux data uri uriF ps hlead fuel collection e hfail hlen
  · rfl

theorem claim_C6_witness :
    paginatedFetchFromCSOD failingTailData 2 "v1" []
      = [] ++ ([(⟨none, [7], some "v2"⟩ : ODataPage Nat)].map (fun p => p.value)).flatten :=
  claim_C6.1 Nat failingTailData "v1" "v2" [⟨none, [7], some "v2"⟩]
    ⟨false, 0, .threwUpMessage⟩ 2 []
    (LeadsTo.step "v1" _ "v2" [] "v2" rfl rfl rfl (LeadsTo.here "v2"))
    rfl (by simp)

/-- Claim C7: for every modeled page sequence ending in a page with no
truthy next link, the paginator returns the concatenation of the pages'
`value` arrays in response order; in particular P1 = ([10, 11], next
`"w2"`), P2 = ([12], no next) yields [10, 11, 12], and an empty first
page with no next link yields the empty sequence. -/
theorem claim_C7 :
    (∀ (α : Type) (data : String → FetchResult (ODataPage α)) (uri : String)
      (ps : List (ODataPage α)) (fuel : Nat),
      ReachesPages data uri ps → ps.length ≤ fuel →
      paginatedFetchFromCSOD data fuel uri []
        = (ps.map (fun p => p.value)).flatten) ∧
    paginatedFetchFromCSOD twoPageData 5 "w1" [] = [10, 11, 12] ∧
    paginatedFetchFromCSOD emptyPageData 5 "e" [] = [] := by
  refine ⟨?_, rfl, rfl⟩
  intro α data uri ps fuel h hf
  simpa using paginatedFetch_reaches_aux data uri ps h fuel hf []

theorem claim_C7_witness :
    paginatedFetchFromCSOD twoPageData 2 "w1" []
      = ([(⟨none, [10, 11], some "w2"⟩ : ODataPage Nat),
          ⟨none, [12], none⟩].map (fun p => p.value)).flatten ∧
    paginatedFetchFromCSOD emptyPageData 1 "e" []
      = ([(⟨none, [], none⟩ : ODataPage Nat)].map (fun p => p.value)).flatten := by
  constructor
  · exact claim_C7.1 Nat twoPageData "w1" _ 2
      (ReachesPages.step "w1" _ "w2" _ rfl rfl rfl (ReachesPages.last "w2" _ rfl rfl))
      (by simp)
  · exact claim_C7.1 Nat emptyPageData "e" _ 1 (ReachesPages.last "e" _ rfl rfl) (by simp)

/-- Claim C10: the paginator is a pure function of the backing dataset —
two runs against pointwise-equal backing data yield the same ordered
item sequence. -/
theorem claim_C10 : ∀ (α : Type) (data1 data2 : String → FetchResult (ODataPage α)),
    (∀ u, data1 u = data2 u) →
    ∀ fuel uri collection,
      paginatedFetchFromCSOD data1 fuel uri collection
        = paginatedFetchFromCSOD data2 fuel uri collection := by
  intro α data1 data2 h fuel
  induction fuel with
  | zero =>
    intro uri collection
    rfl
  | succ f ih =>
    intro uri collection
    simp only [paginatedFetchFromCSOD, h uri]
    cases data2 uri with
    | failure e => rfl
    | success response =>
      cases hnl : response.nextLink with
      | none => simp [hnl]
      | some s =>
        by_cases he : s.isEmpty
        · simp [hnl, he]
        · simp [hnl, he, ih]

theorem claim_C10_witness :
    paginatedFetchFromCSOD twoPageData 5 "w1" []
      = paginatedFetchFromCSOD twoPageData 5 "w1" [] :=
  claim_C10 Nat twoPageData twoPageData (fun _ => rfl) 5 "w1" []

end CSOD

namespace CSOD

/-- Helper: the refresh test is monotone in time — once a state needs
refresh, it still needs refresh at any later time. -/
theorem needsRefresh_mono (s : TokenCacheState) (now now2 : Nat) (h : now ≤ now2)
    (hr : needsRefresh now s = true) : needsRefresh now2 s = true := by
  simp only [needsRefresh, Bool.or_eq_true] at hr ⊢
  rcases hr with h1 | h2
  · exact Or.inl h1
  · right
    cases hexp : s.expiration with
    | none => simp
    | some e =>
      simp only [hexp] at h2 ⊢
      simp only [decide_eq_true_eq] at h2 ⊢
      omega

/-- Helper: while the cached token is set and every call happens no
later than the cached expiration, `get()` calls neither issue nor change
the state. -/
theorem runGets_steady (ε : Type) :
    ∀ (calls : List (Nat × Except ε String)) (s : TokenCacheState),
    strFalsy s.token = false → ∀ e, s.expiration = some e →
    (∀ c ∈ calls, c.1 ≤ e) →
    runGets calls s = (s, 0) := by
  intro calls
  induction calls with
  | nil =>
    intro s _ e _ _
    rfl
  | cons c rest ih =>
    intro s htok e hexp hall
    obtain ⟨now, issue⟩ := c
    have hnow : now ≤ e := hall (now, issue) (List.mem_cons_self _ _)
    have hnr : needsRefresh now s = false := by
      simp [needsRefresh, htok, hexp]
      omega
    have hrest := ih s htok e hexp (fun c hc => hall c (List.mem_cons_of_mem _ hc))
    simp [runGets, apiTokenGet, hnr, hrest]

/-- Helper: after any run of calls all happening by time `T`, the cached
expiration (if set at all) is at most `T` plus the 15-second TTL. -/
theorem runGets_expiration_le (ε : Type) :
    ∀ (calls : List (Nat × Except ε String)) (s : TokenCacheState) (T : Nat),
    (∀ c ∈ calls, c.1 ≤ T) →
    (s.expiration = none ∨ ∃ e, s.expiration = some e ∧ e ≤ T + 15) →
    ((runGets calls s).1.expiration = none ∨
      ∃ e, (runGets calls s).1.expiration = some e ∧ e ≤ T + 15) := by
  intro calls
  induction calls with
  | nil =>
    intro s T _ hs
    exact hs
  | cons c rest ih =>
    intro s T hall hs
    obtain ⟨now, issue⟩ := c
    have hnow : now ≤ T := hall (now, issue) (List.mem_cons_self _ _)
    have hnext : ((apiTokenGet now issue s).2.1.expiration = none ∨
        ∃ e, (apiTokenGet now issue s).2.1.expiration = some e ∧ e ≤ T + 15) := by
      by_cases hr : needsRefresh now s
      · cases issue with
        | ok tok =>
          right
          refine ⟨now + 15, ?_, by omega⟩
          simp [apiTokenGet, hr]
        | error err =>
          simpa [apiTokenGet, hr] using hs
      · simpa [apiTokenGet, hr] using hs
    simp only [runGets]
    exact ih _ T (fun c hc => hall c (List.mem_cons_of_mem _ hc)) hnext

/-- Claim C4 counterexample: three `get()` calls at 0 s, 10 s and 20 s —
each consecutive pair less than the 15 s TTL apart — make two issuance
requests, not one: the call at 20 s lies past the expiration set by the
issuance at 0 s. -/
theorem claim_C4_cex :
    (runGets closeSpacedCalls initialTokenCache).2 = 2 ∧
    (runGets closeSpacedCalls initialTokenCache).2 ≠ 1 := by
  constructor
  · decide
  · decide

/-- Claim C4 (amended): issuance is governed by the absolute expiration
(set at issuance time to that time plus the 15 s TTL), not by call
spacing.  A first issuing call followed by calls all within TTL of the
first call yields exactly one issuance; any call at or before the cached
expiration returns the cached token with the state unchanged and no
issuance; and a call more than TTL after its predecessor (every earlier
call having happened by that predecessor's time) finds the expiration
passed, issues afresh, and sets the expiration to the current time plus
the TTL.  Consecutive calls spaced less than TTL apart can nevertheless
re-issue once they cross the expiration. -/
theorem claim_C4 :
    (∀ (ε : Type) (t0 : Nat) (tok : String) (rest : List (Nat × Except ε String)),
      tok.isEmpty = false →
      (∀ c ∈ rest, c.1 ≤ t0 + 15) →
      (runGets ((t0, Except.ok tok) :: rest) initialTokenCache).2 = 1) ∧
    (∀ (ε : Type) (now : Nat) (issue : Except ε String) (s : TokenCacheState)
      (t : String) (e : Nat),
      s.token = some t → t.isEmpty = false → s.expiration = some e → now ≤ e →
      apiTokenGet now issue s = (.ok t, s, false)) ∧
    (∀ (ε : Type) (calls : List (Nat × Except ε String)) (tprev tnext : Nat)
      (issueP issueN : Except ε String) (tok : String),
      (∀ c ∈ calls, c.1 ≤ tprev) → tprev + 15 < tnext → issueN = .ok tok →
      apiTokenGet tnext issueN (runGets (calls ++ [(tprev, issueP)]) initialTokenCache).1
        = (.ok tok, ⟨some tok, some (tnext + 15)⟩, true)) := by
  refine ⟨?_, ?_, ?_⟩
  · intro ε t0 tok rest htok hall
    have hs : apiTokenGet t0 (Except.ok (ε := ε) tok) initialTokenCache
        = (.ok tok, ⟨some tok, some (t0 + 15)⟩, true) := by
      simp [apiTokenGet, needsRefresh, initialTokenCache, strFalsy]
    have hrest : runGets rest (⟨some tok, some (t0 + 15)⟩ : TokenCacheState)
        = (⟨some tok, some (t0 + 15)⟩, 0) :=
      runGets_steady ε rest _ (by simpa [strFalsy] using htok) (t0 + 15) rfl hall
    simp [runGets, hs, hrest]
  · intro ε now issue s t e hst htok hexp hnow
    have hnr : needsRefresh now s = false := by
      simp [needsRefresh, hst, strFalsy, htok, hexp]
      omega
    simp [apiTokenGet, hnr, hst]
  · intro ε calls tprev tnext issueP issueN tok hall hgap hok
    subst hok
    have hinv := runGets_expiration_le ε (calls ++ [(tprev, issueP)]) initialTokenCache tprev
      (by
        intro c hc
        rcases List.mem_append.mp hc with h | h
        · exact hall c h
        · rw [List.mem_singleton] at h
          subst h
          simp)
      (Or.inl rfl)
    have hnr : needsRefresh tnext
        (runGets (calls ++ [(tprev, issueP)]) initialTokenCache).1 = true := by
      rcases hinv with hnone | ⟨e, he, hle⟩
      · simp [needsRefresh, hnone]
      · have hlt : e < tnext := by omega
        simp [needsRefresh, he, hlt]
    simp [apiTokenGet, hnr]

theorem claim_C4_witness :
    (runGets [((0 : Nat), Except.ok (ε := Unit) "Bearer A"), (10, Except.ok "Bearer B")]
      initialTokenCache).2 = 1 ∧
    apiTokenGet 5 (Except.ok (ε := Unit) "X")
      (⟨some "Bearer A", some 15⟩ : TokenCacheState)
      = (.ok "Bearer A", ⟨some "Bearer A", some 15⟩, false) ∧
    apiTokenGet 16 (Except.ok (ε := Unit) "Bearer B")
      (runGets ([] ++ [((0 : Nat), Except.ok (ε := Unit) "Bearer A")]) initialTokenCache).1
      = (.ok "Bearer B", ⟨some "Bearer B", some 31⟩, true) := by
  refine ⟨?_, ?_, ?_⟩
  · exact claim_C4.1 Unit 0 "Bearer A" [(10, Except.ok "Bearer B")] rfl
      (by
        intro c hc
        rw [List.mem_singleton] at hc
        subst hc
        simp)
  · exact claim_C4.2.1 Unit 5 (Except.ok "X") ⟨some "Bearer A", some 15⟩ "Bearer A" 15
      rfl rfl rfl (by omega)
  · exact claim_C4.2.2 Unit [] 0 16 (Except.ok "Bearer A") (Except.ok "Bearer B") "Bearer B"
      (by intro c hc; simp at hc) (by omega) rfl

end CSOD

namespace CSOD

/-- What the OAuth token-issuing transport does on one
`getOauthToken()`/`tokenResponse.json()` round trip in
`src/utils/getCSODToken.ts`: either `fetch` rejects or `json()` throws
(the error `err` propagates), or a response arrives with an HTTP status
and a JSON body whose `token_type` and `access_token` fields may each be
present or absent (`none` models an absent field, as in a non-2xx error
body). -/
inductive OauthAttempt (ε : Type) where
  | throws (err : ε) : OauthAttempt ε
  | returns (status : Nat) (token_type : Option String)
      (access_token : Option String) : OauthAttempt ε
deriving DecidableEq

/-- JavaScript template-literal interpolation of a possibly-undefined
value: an absent field prints as the string `undefined`. -/
def jsShow : Option String → String
  | none => "undefined"
  | some s => s

/-- `fetchAPIToken` from `src/utils/getCSODToken.ts`.  Mirrors the
source exactly: the HTTP status of the OAuth response is never
inspected — the body is destructured and the call resolves with
`` `${token_type} ${access_token}` `` whatever the status was; only a
thrown transport/parse error propagates. -/
def fetchAPIToken : OauthAttempt ε → Except ε String
  | .throws err => .error err
  | .returns _ token_type access_token =>
    .ok (jsShow token_type ++ " " ++ jsShow access_token)

/-- Helper: the interpolated `"<token_type> <access_token>"` string is
never empty (it always contains the separating space), so the token
cache's falsiness test never fires on it. -/
theorem fetchAPIToken_string_isEmpty (t a : Option String) :
    (jsShow t ++ " " ++ jsShow a).isEmpty = false := by
  rw [Bool.eq_false_iff]
  intro h
  rw [String.isEmpty_iff] at h
  have hlen := congrArg String.length h
  have hone : (" " : String).length = 1 := rfl
  simp [String.length_append, hone] at hlen

/-- Claim C5 counterexample: a non-2xx OAuth response (status 400, no
token fields) does not propagate out of `get()` — `fetchAPIToken`
resolves with the string `"undefined undefined"`, which `get()` caches
with a fresh expiration, so the state is modified and the immediately
following call performs no issuance request at all. -/
theorem claim_C5_cex :
    fetchAPIToken (OauthAttempt.returns (ε := Unit) 400 none none)
      = Except.ok "undefined undefined" ∧
    apiTokenGet 0 (fetchAPIToken (OauthAttempt.returns (ε := Unit) 400 none none))
        initialTokenCache
      = (Except.ok "undefined undefined",
         ⟨some "undefined undefined", some 15⟩, true) ∧
    (apiTokenGet 0 (fetchAPIToken (OauthAttempt.returns (ε := Unit) 400 none none))
        initialTokenCache).2.1 ≠ initialTokenCache ∧
    (apiTokenGet 1 (Except.ok (ε := Unit) "X")
        (apiTokenGet 0 (fetchAPIToken (OauthAttempt.returns (ε := Unit) 400 none none))
          initialTokenCache).2.1).2.2 = false := by
  refine ⟨rfl, rfl, ?_, rfl⟩
  decide

/-- Claim C5 (amended): only a thrown issuance error (network failure,
rejected fetch, JSON parse fault) propagates out of `get()` with the
cached state unmodified, so that the immediately following call
attempts issuance again.  An HTTP response of any status — including
the non-2xx failures the spec names — never propagates:
`fetchAPIToken` ignores the status and resolves with
`"<token_type> <access_token>"` (the string `"undefined undefined"`
when the fields are absent from an error body), which `get()` caches
with expiration set to the current time plus the TTL, so the
immediately following calls within the TTL return that cached string
without issuing. -/
theorem claim_C5 :
    (∀ (ε : Type) (now : Nat) (s : TokenCacheState) (err : ε),
      needsRefresh now s = true →
      apiTokenGet now (fetchAPIToken (OauthAttempt.throws err)) s
        = (.error err, s, true) ∧
      ∀ now2 (issue2 : Except ε String), now ≤ now2 →
        (apiTokenGet now2 issue2 s).2.2 = true) ∧
    (∀ (ε : Type) (now : Nat) (s : TokenCacheState) (status : Nat)
      (tt ak : Option String),
      needsRefresh now s = true →
      apiTokenGet now (fetchAPIToken (OauthAttempt.returns (ε := ε) status tt ak)) s
        = (.ok (jsShow tt ++ " " ++ jsShow ak),
           ⟨some (jsShow tt ++ " " ++ jsShow ak), some (now + 15)⟩, true) ∧
      ∀ now2 (issue2 : Except ε String), now2 ≤ now + 15 →
        (apiTokenGet now2 issue2
          (⟨some (jsShow tt ++ " " ++ jsShow ak), some (now + 15)⟩ : TokenCacheState)).2.2
          = false) := by
  constructor
  · intro ε now s err hr
    constructor
    · simp [apiTokenGet, fetchAPIToken, hr]
    · intro now2 issue2 hle
      have hr2 := needsRefresh_mono s now now2 hle hr
      cases issue2 with
      | ok tok => simp [apiTokenGet, hr2]
      | error e2 => simp [apiTokenGet, hr2]
  · intro ε now s status tt ak hr
    constructor
    · simp [apiTokenGet, fetchAPIToken, hr]
    · intro now2 issue2 hle
      have hnr : needsRefresh now2
          (⟨some (jsShow tt ++ " " ++ jsShow ak), some (now + 15)⟩ : TokenCacheState)
          = false := by
        simp [needsRefresh, strFalsy, fetchAPIToken_string_isEmpty]
        omega
      simp [apiTokenGet, hnr]

theorem claim_C5_witness :
    apiTokenGet 0 (fetchAPIToken (OauthAttempt.throws ())) initialTokenCache
      = (.error (), initialTokenCache, true) ∧
    (apiTokenGet 3 (Except.ok (ε := Unit) "Bearer A") initialTokenCache).2.2 = true ∧
    apiTokenGet 0 (fetchAPIToken (OauthAttempt.returns (ε := Unit) 400 none none))
        initialTokenCache
      = (.ok (jsShow none ++ " " ++ jsShow none),
         ⟨some (jsShow none ++ " " ++ jsShow none), some 15⟩, true) ∧
    (apiTokenGet 9 (Except.ok (ε := Unit) "X")
        (⟨some (jsShow none ++ " " ++ jsShow none), some 15⟩ : TokenCacheState)).2.2
      = false := by
  refine ⟨?_, ?_, ?_, ?_⟩
  · exact (claim_C5.1 Unit 0 initialTokenCache () rfl).1
  · exact (claim_C5.1 Unit 0 initialTokenCache () rfl).2 3 (Except.ok "Bearer A") (by omega)
  · exact (claim_C5.2 Unit 0 initialTokenCache 400 none none rfl).1
  · exact (claim_C5.2 Unit 0 initialTokenCache 400 none none rfl).2 9
      (Except.ok "X") (by omega)

end CSOD
